import Mathlib

/-!
Verification development for the ai-revenue-manager frontend core:
the chat stream frame decoder (src/frontend/lib/chatApi.ts, streamChat)
and the optimize pipeline state machine and dispatch loop
(src/frontend/components/ResultsPanel.tsx, reducer / useOptimize).

Machine text is modelled as `List Char`; JavaScript `JSON.parse` is
modelled by an executable recursive-descent parser for the JSON fragment
the protocol uses (strings, booleans, null, integer numerals, arrays,
objects); a payload outside the fragment parses to `none`, which the
stream code treats exactly like a malformed frame (skip).
-/

namespace AiRevenueManager

/- ── Data model, from src/frontend/lib/types.ts ───────────────────────── -/

inductive LLMProvider
  | anthropic
  | gemini
deriving DecidableEq

inductive QueryType
  | valid
  | irrelevant
  | booking
  | insufficient
deriving DecidableEq

inductive NodeName
  | router
  | market_analyst
  | demand_forecaster
  | pricing_strategist
  | revenue_manager
deriving DecidableEq

inductive NodeStatus
  | pending
  | active
  | done
  | error
deriving DecidableEq

/-- OptimizeResponse from types.ts.  JavaScript numbers in
`execution_times` only carry data for the claims below; they are
modelled as rationals. -/
structure OptimizeResponse where
  hotel_name : String
  hotel_location : String
  query_type : QueryType
  provider : LLMProvider
  error_message : Option String
  market_analysis : Option String
  demand_forecast : Option String
  pricing_strategy : Option String
  revenue_plan : Option String
  execution_times : List (String × Rat)
  model_used : List (String × String)
deriving DecidableEq

structure PipelineNode where
  id : NodeName
  label : String
  shortLabel : String
  model : String
  status : NodeStatus
  data : Option String
deriving DecidableEq

inductive OptimizePhase
  | idle
  | streaming
  | complete
  | error
deriving DecidableEq

structure OptimizeState where
  phase : OptimizePhase
  nodes : List PipelineNode
  result : Option OptimizeResponse
  error : Option String
  activeTab : Option NodeName
deriving DecidableEq

inductive OptimizeAction
  | start
  | nodeActive (node : NodeName)
  | nodeDone (node : NodeName) (data : String)
  | complete (result : OptimizeResponse)
  | error (error : String)
  | reset
  | setTab (tab : NodeName)
  | setProvider (provider : LLMProvider)
deriving DecidableEq

/-- StreamEvent from types.ts.  At runtime the `node` field of a progress
event is whatever string the backend sent — useOptimize.run re-checks it
against NODE_ORDER — so it is modelled as a `String`. -/
inductive StreamEvent
  | node (node : String) (data : String)
  | result (result : OptimizeResponse)
deriving DecidableEq

/- ── Pipeline state machine, from ResultsPanel.tsx lines 1001–1096 ────── -/

/-- PROVIDER_MODEL_LABELS (ResultsPanel.tsx 1001–1016). -/
def PROVIDER_MODEL_LABELS : LLMProvider → NodeName → String
  | .anthropic, .router => "Haiku"
  | .anthropic, .market_analyst => "Haiku"
  | .anthropic, .demand_forecaster => "Sonnet"
  | .anthropic, .pricing_strategist => "Sonnet"
  | .anthropic, .revenue_manager => "Haiku"
  | .gemini, .router => "G3 Flash"
  | .gemini, .market_analyst => "G3 Flash"
  | .gemini, .demand_forecaster => "G3 Flash"
  | .gemini, .pricing_strategist => "G3 Flash"
  | .gemini, .revenue_manager => "G3 Flash"

/-- buildPipelineNodes (ResultsPanel.tsx 1018–1027). -/
def buildPipelineNodes (provider : LLMProvider) : List PipelineNode :=
  let labels := PROVIDER_MODEL_LABELS provider
  [ { id := .router, label := "Query Router", shortLabel := "Router",
      model := labels .router, status := .pending, data := none },
    { id := .market_analyst, label := "Market Analyst", shortLabel := "Market",
      model := labels .market_analyst, status := .pending, data := none },
    { id := .demand_forecaster, label := "Demand Forecaster", shortLabel := "Demand",
      model := labels .demand_forecaster, status := .pending, data := none },
    { id := .pricing_strategist, label := "Pricing Strategist", shortLabel := "Pricing",
      model := labels .pricing_strategist, status := .pending, data := none },
    { id := .revenue_manager, label := "Revenue Manager", shortLabel := "Manager",
      model := labels .revenue_manager, status := .pending, data := none } ]

/-- initialState (ResultsPanel.tsx 1029–1035). -/
def initialState : OptimizeState :=
  { phase := .idle,
    nodes := buildPipelineNodes .anthropic,
    result := none,
    error := none,
    activeTab := none }

/-- reducer (ResultsPanel.tsx 1037–1088), a direct translation. -/
def reducer (state : OptimizeState) (action : OptimizeAction) : OptimizeState :=
  match action with
  | .start =>
    { state with
      phase := .streaming, result := none, error := none, activeTab := none,
      nodes := state.nodes.map (fun n => { n with status := .pending, data := none }) }
  | .nodeActive node =>
    { state with
      nodes := state.nodes.map (fun n =>
        if n.id = node then { n with status := .active } else n) }
  | .nodeDone node data =>
    { state with
      nodes := state.nodes.map (fun n =>
        if n.id = node then { n with status := .done, data := some data } else n),
      activeTab := some node }
  | .complete result =>
    { state with phase := .complete, result := some result }
  | .error e =>
    { state with
      phase := .error, error := some e,
      nodes := state.nodes.map (fun n =>
        if n.status = .active then { n with status := .error } else n) }
  | .reset =>
    { initialState with nodes := buildPipelineNodes .anthropic }
  | .setTab tab =>
    { state with activeTab := some tab }
  | .setProvider provider =>
    { state with nodes := buildPipelineNodes provider }

/-- NODE_ORDER (ResultsPanel.tsx 1090–1096). -/
def NODE_ORDER : List NodeName :=
  [.router, .market_analyst, .demand_forecaster, .pricing_strategist, .revenue_manager]

/-- The string spelling of a NodeName (the TypeScript NodeName union is a
string union; this is the bridge used by the `NODE_ORDER.includes(node)`
membership test in useOptimize.run). -/
def nodeNameOfString? (s : String) : Option NodeName :=
  if s = "router" then some .router
  else if s = "market_analyst" then some .market_analyst
  else if s = "demand_forecaster" then some .demand_forecaster
  else if s = "pricing_strategist" then some .pricing_strategist
  else if s = "revenue_manager" then some .revenue_manager
  else none

/-- Status of the record for a given node, if present. -/
def statusOf (s : OptimizeState) (n : NodeName) : Option NodeStatus :=
  (s.nodes.find? (fun r => r.id = n)).map (fun r => r.status)

/-- Stored data of the record for a given node, if present. -/
def dataOf (s : OptimizeState) (n : NodeName) : Option (Option String) :=
  (s.nodes.find? (fun r => r.id = n)).map (fun r => r.data)

/-- Fold a list of dispatched actions through the reducer. -/
def applyActions (s : OptimizeState) (acts : List OptimizeAction) : OptimizeState :=
  acts.foldl reducer s

/- ── Dispatch loop, from useOptimize.run (ResultsPanel.tsx 1102–1130) ─── -/

/-- The actions useOptimize.run dispatches for one classified stream
event: a result event dispatches COMPLETE; a progress event whose node is
in NODE_ORDER dispatches NODE_ACTIVE, pauses 400 ms, then dispatches
NODE_DONE; an unrecognized node is skipped. -/
def eventActions : StreamEvent → List OptimizeAction
  | .result r => [.complete r]
  | .node s d =>
    match nodeNameOfString? s with
    | some n => [.nodeActive n, .nodeDone n d]
    | none => []

/-- State after useOptimize.run dispatches START and then processes a
full event sequence without cancellation. -/
def runState (init : OptimizeState) (events : List StreamEvent) : OptimizeState :=
  applyActions (reducer init .start) (events.flatMap eventActions)

/-- Suspension points of the run loop at which JavaScript can schedule a
cancellation (reset() or a superseding run()): `atPull k` is the await of
the next stream event with `k` events fully consumed, `atPause k` is the
400 ms pause inside processing of event `k` (present only for recognized
progress events, between their NODE_ACTIVE and NODE_DONE dispatches). -/
inductive CancelPoint
  | atPull (k : Nat)
  | atPause (k : Nat)
deriving DecidableEq

/-- Split of one event's dispatches around its 400 ms pause: the actions
dispatched before the pause and those dispatched after it.  A result
event and an unrecognized progress event have no pause; everything they
dispatch happens before the next pull. -/
def pauseSplit : StreamEvent → List OptimizeAction × List OptimizeAction
  | .result r => ([.complete r], [])
  | .node s d =>
    match nodeNameOfString? s with
    | some n => ([.nodeActive n], [.nodeDone n d])
    | none => ([], [])

/-- Actions the canceled run has dispatched up to the cancellation
request (including the START it issued itself). -/
def actionsBeforeCancel (events : List StreamEvent) : CancelPoint → List OptimizeAction
  | .atPull k => .start :: (events.take k).flatMap eventActions
  | .atPause k =>
    .start :: (events.take k).flatMap eventActions ++
      (match events[k]? with
       | some e => (pauseSplit e).1
       | none => [])

/-- Actions the canceled run still dispatches after the cancellation
request.  The abort is modelled as ideally prompt on the transport side —
no further events are pulled and the AbortError is swallowed (line 1124)
— but the 400 ms pause (line 1120) does not observe the abort signal, so
a pending NODE_DONE (line 1121) still fires. -/
def actionsAfterCancel (events : List StreamEvent) : CancelPoint → List OptimizeAction
  | .atPull _ => []
  | .atPause k =>
    match events[k]? with
    | some e => (pauseSplit e).2
    | none => []

/-- Shared state observed after a run is canceled at `cp`:
the canceled run's pre-cancel dispatches, then the canceling caller's own
dispatches (`[.reset]` for reset(), `.start` prefixed actions for a
superseding run()), then whatever the canceled run still dispatches. -/
def cancelRunFinalState (events : List StreamEvent) (cp : CancelPoint)
    (cancelActions : List OptimizeAction) : OptimizeState :=
  applyActions initialState
    (actionsBeforeCancel events cp ++ cancelActions ++ actionsAfterCancel events cp)

/- ── Chat stream frame decoder, from streamChat (chatApi.ts 73–99) ────── -/

/-- JavaScript `buffer.split("\n")`: split a character sequence at every
newline, keeping empty parts, so a sequence with `k` newlines yields
`k + 1` parts. -/
def splitNl : List Char → List (List Char)
  | [] => [[]]
  | c :: rest =>
    if c = '\n' then [] :: splitNl rest
    else ((c :: (splitNl rest).headD []) :: (splitNl rest).tail)

/-- The read loop of streamChat (lines 78–96): append each chunk to the
carried buffer, split on newline, emit all complete lines, carry the last
(possibly incomplete) part; at end of input the trailing buffer is
dropped without emission. -/
def feedChunks : List Char → List (List Char) → List (List Char)
  | _, [] => []
  | buf, ch :: rest =>
    (splitNl (buf ++ ch)).dropLast ++
      feedChunks ((splitNl (buf ++ ch)).getLastD []) rest

/-- All complete lines produced by feeding a chunk sequence to the
decoder, starting from an empty buffer. -/
def decodeLines (chunks : List (List Char)) : List (List Char) :=
  feedChunks [] chunks

/-- Whitespace removed by JavaScript String.prototype.trim. -/
def isJsSpace (c : Char) : Bool :=
  c = ' ' || c = '\t' || c = '\n' || c = '\r' || c = '\x0b' || c = '\x0c'

/-- JavaScript `line.trim()`. -/
def jsTrim (s : List Char) : List Char :=
  ((s.dropWhile isJsSpace).reverse.dropWhile isJsSpace).reverse

/-- The characters of the recognized record marker `data:`. -/
def dataMarker : List Char := "data:".toList

/-- Lines 85–87 of streamChat: trim the line; if it starts with `data:`,
the payload is the remainder with the 5-character marker removed and
trimmed; any other line yields nothing. -/
def payloadOfLine (line : List Char) : Option (List Char) :=
  let trimmed := jsTrim line
  if dataMarker.isPrefixOf trimmed then some (jsTrim (trimmed.drop 5)) else none

/-- The ordered payload sequence the decoder produces from a chunk
sequence. -/
def decodePayloads (chunks : List (List Char)) : List (List Char) :=
  (decodeLines chunks).filterMap payloadOfLine

/- ── JSON model (the fragment used by the protocol frames) ────────────── -/

/-- Parsed JSON values.  Numbers are restricted to integer numerals; the
protocol's chat frames contain only strings and booleans. -/
inductive Json
  | null
  | bool (b : Bool)
  | num (n : Int)
  | str (s : String)
  | arr (elems : List Json)
  | obj (fields : List (String × Json))

/-- JSON insignificant whitespace. -/
def skipWs (cs : List Char) : List Char :=
  cs.dropWhile (fun c => c = ' ' || c = '\t' || c = '\n' || c = '\r')

/-- Value of a hexadecimal digit, if it is one. -/
def hexVal? (c : Char) : Option Nat :=
  if '0' ≤ c ∧ c ≤ '9' then some (c.toNat - '0'.toNat)
  else if 'a' ≤ c ∧ c ≤ 'f' then some (c.toNat - 'a'.toNat + 10)
  else if 'A' ≤ c ∧ c ≤ 'F' then some (c.toNat - 'A'.toNat + 10)
  else none

/-- Body of a JSON string literal, after the opening quote; returns the
decoded characters and the rest after the closing quote. -/
def parseStrBody : Nat → List Char → Option (List Char × List Char)
  | 0, _ => none
  | _, [] => none
  | fuel + 1, c :: rest =>
    if c = '"' then some ([], rest)
    else if c = '\\' then
      match rest with
      | 'n' :: r => (parseStrBody fuel r).map (fun p => ('\n' :: p.1, p.2))
      | 't' :: r => (parseStrBody fuel r).map (fun p => ('\t' :: p.1, p.2))
      | 'r' :: r => (parseStrBody fuel r).map (fun p => ('\r' :: p.1, p.2))
      | 'b' :: r => (parseStrBody fuel r).map (fun p => ('\x08' :: p.1, p.2))
      | 'f' :: r => (parseStrBody fuel r).map (fun p => ('\x0c' :: p.1, p.2))
      | '"' :: r => (parseStrBody fuel r).map (fun p => ('"' :: p.1, p.2))
      | '\\' :: r => (parseStrBody fuel r).map (fun p => ('\\' :: p.1, p.2))
      | '/' :: r => (parseStrBody fuel r).map (fun p => ('/' :: p.1, p.2))
      | 'u' :: h1 :: h2 :: h3 :: h4 :: r =>
        match hexVal? h1, hexVal? h2, hexVal? h3, hexVal? h4 with
        | some a, some b, some c', some d =>
          (parseStrBody fuel r).map (fun p =>
            (Char.ofNat (((a * 16 + b) * 16 + c') * 16 + d) :: p.1, p.2))
        | _, _, _, _ => none
      | _ => none
    else (parseStrBody fuel rest).map (fun p => (c :: p.1, p.2))

/-- An integer numeral: optional minus, then at least one digit, not
followed by a fraction or exponent (non-integer numerals are outside the
modelled fragment and fail). -/
def parseIntNum (cs : List Char) : Option (Int × List Char) :=
  let core : List Char → Option (Nat × List Char) := fun ds =>
    match ds.span Char.isDigit with
    | (digits, rest) =>
      if digits.isEmpty then none
      else
        match rest with
        | '.' :: _ => none
        | 'e' :: _ => none
        | 'E' :: _ => none
        | _ => some (digits.foldl (fun acc c => acc * 10 + (c.toNat - '0'.toNat)) 0, rest)
  match cs with
  | '-' :: rest => (core rest).map (fun p => (-(p.1 : Int), p.2))
  | _ => (core cs).map (fun p => ((p.1 : Int), p.2))

mutual

/-- Parse one JSON value (fuel-bounded recursive descent). -/
def parseVal : Nat → List Char → Option (Json × List Char)
  | 0, _ => none
  | fuel + 1, cs =>
    match skipWs cs with
    | 'n' :: 'u' :: 'l' :: 'l' :: rest => some (.null, rest)
    | 't' :: 'r' :: 'u' :: 'e' :: rest => some (.bool true, rest)
    | 'f' :: 'a' :: 'l' :: 's' :: 'e' :: rest => some (.bool false, rest)
    | '"' :: rest =>
      (parseStrBody (rest.length + 1) rest).map (fun p => (.str (String.mk p.1), p.2))
    | '[' :: rest =>
      (match skipWs rest with
       | ']' :: r => some (.arr [], r)
       | other => (parseElems fuel other).map (fun p => (.arr p.1, p.2)))
    | '\x7b' :: rest =>
      (match skipWs rest with
       | '\x7d' :: r => some (.obj [], r)
       | other => (parseFields fuel other).map (fun p => (.obj p.1, p.2)))
    | other => parseIntNum other |>.map (fun p => (.num p.1, p.2))

/-- Parse a nonempty comma-separated element list and the closing `]`. -/
def parseElems : Nat → List Char → Option (List Json × List Char)
  | 0, _ => none
  | fuel + 1, cs =>
    match parseVal fuel cs with
    | none => none
    | some (v, rest) =>
      match skipWs rest with
      | ',' :: r => (parseElems fuel r).map (fun p => (v :: p.1, p.2))
      | ']' :: r => some ([v], r)
      | _ => none

/-- Parse a nonempty comma-separated member list and the closing brace. -/
def parseFields : Nat → List Char → Option (List (String × Json) × List Char)
  | 0, _ => none
  | fuel + 1, cs =>
    match skipWs cs with
    | '"' :: rest =>
      match parseStrBody (rest.length + 1) rest with
      | none => none
      | some (key, afterKey) =>
        match skipWs afterKey with
        | ':' :: afterColon =>
          match parseVal fuel afterColon with
          | none => none
          | some (v, rest') =>
            match skipWs rest' with
            | ',' :: r => (parseFields fuel r).map (fun p => ((String.mk key, v) :: p.1, p.2))
            | '\x7d' :: r => some ([(String.mk key, v)], r)
            | _ => none
        | _ => none
    | _ => none

end

/-- Model of `JSON.parse(payload)`: parse one value and require only
whitespace after it; `none` models a thrown SyntaxError. -/
def jsonParse (payload : List Char) : Option Json :=
  match parseVal (2 * payload.length + 2) payload with
  | some (v, rest) => if (skipWs rest).isEmpty then some v else none
  | none => none

/-- JavaScript property read `v.key` on a non-null value: objects look
the key up (last duplicate wins); a missing key or a primitive/array
receiver gives `undefined`, modelled as `none`. -/
def getField : Json → String → Option Json
  | .obj fields, key =>
    fields.foldl (fun acc f => if f.1 = key then some f.2 else acc) none
  | _, _ => none

/-- JavaScript truthiness of a parsed JSON value. -/
def jsTruthy : Json → Bool
  | .null => false
  | .bool b => b
  | .num n => n ≠ 0
  | .str s => s ≠ ""
  | .arr _ => true
  | .obj _ => true

/-- Truthiness of a possibly-undefined property. -/
def truthyOpt : Option Json → Bool
  | none => false
  | some v => jsTruthy v

mutual

/-- JavaScript string conversion of the yielded content value. -/
def jsToString : Json → String
  | .null => "null"
  | .bool true => "true"
  | .bool false => "false"
  | .num n => toString n
  | .str s => s
  | .arr es => String.intercalate "," (jsToStrings es)
  | .obj _ => "[object Object]"

/-- String conversions of a list of values (JavaScript Array join). -/
def jsToStrings : List Json → List String
  | [] => []
  | j :: rest => jsToString j :: jsToStrings rest

end

/-- Effect of classifying one frame in streamChat's per-line loop. -/
inductive LineEffect
  | skip
  | halt
  | yieldText (s : String)
deriving DecidableEq

/-- Lines 88–94 of streamChat for one payload: a payload that fails to
parse is skipped (the catch block); a parsed `null` is skipped too (the
property read throws inside the same try); a truthy `done` terminates the
generator; otherwise a truthy `content` is yielded; anything else is
skipped. -/
def payloadEffect (payload : List Char) : LineEffect :=
  match jsonParse payload with
  | none => .skip
  | some .null => .skip
  | some v =>
    if truthyOpt (getField v "done") then .halt
    else if truthyOpt (getField v "content") then
      .yieldText (jsToString ((getField v "content").getD .null))
    else .skip

/-- The texts streamChat yields for an ordered payload sequence: frames
are classified in order and a `halt` stops the generator, so later
payloads contribute nothing. -/
def processPayloads : List (List Char) → List String
  | [] => []
  | p :: rest =>
    match payloadEffect p with
    | .skip => processPayloads rest
    | .halt => []
    | .yieldText s => s :: processPayloads rest

/-- Effect of one decoded line: non-`data:` lines are skipped. -/
def lineEffect (line : List Char) : LineEffect :=
  match payloadOfLine line with
  | none => .skip
  | some payload => payloadEffect payload

/-- Per-line generator loop over decoded lines. -/
def processLines : List (List Char) → List String
  | [] => []
  | l :: rest =>
    match lineEffect l with
    | .skip => processLines rest
    | .halt => []
    | .yieldText s => s :: processLines rest

/-- End-to-end model of streamChat: decode arbitrarily chunked text into
lines, then classify and yield. -/
def streamChatYields (chunks : List (List Char)) : List String :=
  processLines (decodeLines chunks)

/- ── Concrete protocol frames used as witnesses ───────────────────────── -/

/-- Scenario B first frame payload. -/
def frameHi : List Char := "\x7b\"content\":\"Hi\",\"done\":false\x7d".toList

/-- Scenario B terminating frame payload. -/
def frameDone : List Char := "\x7b\"content\":\"\",\"done\":true\x7d".toList

/-- A frame arriving after the done frame. -/
def frameLate : List Char := "\x7b\"content\":\"late\",\"done\":false\x7d".toList

/-- A payload that fails JSON parsing. -/
def frameBad : List Char := "\x7boops".toList

/-- A generic result payload for the optimize scenarios. -/
def sampleResult : OptimizeResponse :=
  { hotel_name := "H", hotel_location := "L", query_type := .valid,
    provider := .anthropic, error_message := none, market_analysis := none,
    demand_forecast := none, pricing_strategy := none, revenue_plan := none,
    execution_times := [], model_used := [] }

/-- State reached by the optimize session in Scenario A: the stream
delivers one Progress event for router with text `hello`, then a Result
event carrying `r`. -/
def scenarioAState (r : OptimizeResponse) : OptimizeState :=
  runState initialState [.node "router" "hello", .result r]

/- ── Helper lemmas on splitNl and the chunk feed ──────────────────────── -/

theorem splitNl_ne_nil (l : List Char) : splitNl l ≠ [] := by
  cases l with
  | nil => simp [splitNl]
  | cons c rest =>
    by_cases h : c = '\n' <;> simp [splitNl, h]

theorem headD_cons_tail {α : Type} (l : List α) (d : α) (h : l ≠ []) :
    l.headD d :: l.tail = l := by
  cases l with
  | nil => exact absurd rfl h
  | cons a t => rfl

theorem getLastD_irrel {α : Type} (l : List α) (d₁ d₂ : α) (h : l ≠ []) :
    l.getLastD d₁ = l.getLastD d₂ := by
  induction l generalizing d₁ d₂ with
  | nil => exact absurd rfl h
  | cons a t ih =>
    cases t with
    | nil => rfl
    | cons b u => simp only [List.getLastD_cons]

theorem headD_mem {α : Type} (l : List α) (d : α) (h : l ≠ []) :
    l.headD d ∈ l := by
  cases l with
  | nil => exact absurd rfl h
  | cons a t => simp [List.headD]

theorem getLastD_mem {α : Type} (l : List α) (d : α) (h : l ≠ []) :
    l.getLastD d ∈ l := by
  induction l generalizing d with
  | nil => exact absurd rfl h
  | cons a t ih =>
    cases t with
    | nil => simp [List.getLastD]
    | cons b u =>
      rw [List.getLastD_cons]
      exact List.mem_cons_of_mem a (ih a (by simp))

theorem mem_splitNl_no_nl (l : List Char) (p : List Char) (hp : p ∈ splitNl l) :
    '\n' ∉ p := by
  induction l generalizing p with
  | nil =>
    simp [splitNl] at hp
    simp [hp]
  | cons c rest ih =>
    by_cases h : c = '\n'
    · simp [splitNl, h] at hp
      rcases hp with hp | hp
      · simp [hp]
      · exact ih p hp
    · simp only [splitNl, if_neg h] at hp
      rcases List.mem_cons.mp hp with hp | hp
      · subst hp
        intro hmem
        rcases List.mem_cons.mp hmem with hc | hc
        · exact h hc.symm
        · exact ih _ (headD_mem _ _ (splitNl_ne_nil rest)) hc
      · exact ih p (List.mem_of_mem_tail hp)

theorem splitNl_of_no_nl (l : List Char) (h : '\n' ∉ l) : splitNl l = [l] := by
  induction l with
  | nil => rfl
  | cons c rest ih =>
    have hc : c ≠ '\n' := fun hc => h (hc ▸ List.mem_cons_self c rest)
    have hrest : '\n' ∉ rest := fun hr => h (List.mem_cons_of_mem c hr)
    simp [splitNl, hc, ih hrest]

theorem splitNl_cons_nl (rest : List Char) :
    splitNl ('\n' :: rest) = [] :: splitNl rest := by
  simp [splitNl]

theorem splitNl_cons_other (c : Char) (rest : List Char) (hc : c ≠ '\n') :
    splitNl (c :: rest) = (c :: (splitNl rest).headD []) :: (splitNl rest).tail := by
  simp [splitNl, hc]

theorem splitNl_append (a b : List Char) :
    splitNl (a ++ b) =
      (splitNl a).dropLast ++
        ((splitNl a).getLastD [] ++ (splitNl b).headD []) :: (splitNl b).tail := by
  induction a with
  | nil =>
    exact (headD_cons_tail (splitNl b) [] (splitNl_ne_nil b)).symm
  | cons c a' ih =>
    by_cases hc : c = '\n'
    · subst hc
      rw [List.cons_append, splitNl_cons_nl, splitNl_cons_nl, ih,
        List.dropLast_cons_of_ne_nil (splitNl_ne_nil a'), List.getLastD_cons,
        getLastD_irrel (splitNl a') [] ([] : List Char) (splitNl_ne_nil a'),
        List.cons_append]
    · rw [List.cons_append, splitNl_cons_other c _ hc, splitNl_cons_other c _ hc, ih]
      cases hr : splitNl a' with
      | nil => exact absurd hr (splitNl_ne_nil a')
      | cons q r' =>
        cases r' with
        | nil => simp [List.getLastD]
        | cons q2 r'' =>
          simp only [List.headD_cons, List.tail_cons,
            List.dropLast_cons_of_ne_nil (List.cons_ne_nil q2 r''),
            List.getLastD_cons, List.cons_append]

theorem feedChunks_eq (chunks : List (List Char)) :
    ∀ buf : List Char, '\n' ∉ buf →
      feedChunks buf chunks = (splitNl (buf ++ chunks.flatten)).dropLast := by
  induction chunks with
  | nil =>
    intro buf hbuf
    simp [feedChunks, splitNl_of_no_nl buf hbuf]
  | cons ch rest ih =>
    intro buf hbuf
    have hg : '\n' ∉ (splitNl (buf ++ ch)).getLastD [] :=
      mem_splitNl_no_nl _ _ (getLastD_mem _ _ (splitNl_ne_nil _))
    have hg2 : splitNl ((splitNl (buf ++ ch)).getLastD [] ++ rest.flatten) =
        ((splitNl (buf ++ ch)).getLastD [] ++ (splitNl rest.flatten).headD []) ::
          (splitNl rest.flatten).tail := by
      rw [splitNl_append, splitNl_of_no_nl _ hg]
      rfl
    have hassoc : buf ++ (ch :: rest).flatten = (buf ++ ch) ++ rest.flatten := by
      simp [List.flatten_cons, List.append_assoc]
    show (splitNl (buf ++ ch)).dropLast ++
        feedChunks ((splitNl (buf ++ ch)).getLastD []) rest = _
    rw [ih _ hg, hg2, hassoc, splitNl_append (buf ++ ch) rest.flatten,
      List.dropLast_append_cons]

theorem decodeLines_flatten (chunks : List (List Char)) :
    decodeLines chunks = (splitNl chunks.flatten).dropLast :=
  feedChunks_eq chunks [] (by simp)

/- ── Claim theorems ───────────────────────────────────────────────────── -/

/-- C2: chunk-boundary invariance of the stream frame decoder — for every
input text and every way of partitioning it into chunks (empty chunks
included, which are no-ops), feeding the chunks one at a time yields
exactly the same ordered sequence of decoded payloads as feeding the
whole concatenated text as a single chunk. -/
theorem chunk_boundary_invariance (chunks : List (List Char)) :
    decodePayloads chunks = decodePayloads [chunks.flatten] := by
  unfold decodePayloads
  rw [decodeLines_flatten, decodeLines_flatten]
  simp

/-- Witness for C2 at a concrete chunking: the Scenario A text split into
three uneven chunks decodes to the same payloads as the whole text. -/
theorem chunk_boundary_invariance_witness :
    decodePayloads ["data: hel".toList, "lo\nda".toList, "ta: world\n\n".toList]
      = decodePayloads
          [(["data: hel".toList, "lo\nda".toList, "ta: world\n\n".toList]).flatten] ∧
    decodePayloads ["data: hel".toList, "lo\nda".toList, "ta: world\n\n".toList]
      = ["hello".toList, "world".toList] :=
  ⟨chunk_boundary_invariance ["data: hel".toList, "lo\nda".toList, "ta: world\n\n".toList],
   by decide⟩

/-- C8: the Start transition produces, from every state, a state whose
phase is streaming, whose every node is pending with no stored data, and
whose result, error and selection are all cleared. -/
theorem start_transition (s : OptimizeState) :
    (reducer s .start).phase = .streaming ∧
    (∀ n ∈ (reducer s .start).nodes, n.status = .pending ∧ n.data = none) ∧
    (reducer s .start).result = none ∧
    (reducer s .start).error = none ∧
    (reducer s .start).activeTab = none := by
  refine ⟨rfl, ?_, rfl, rfl, rfl⟩
  intro n hn
  simp only [reducer, List.mem_map] at hn
  obtain ⟨m, _, rfl⟩ := hn
  exact ⟨rfl, rfl⟩

/-- Witness for C8 at a concrete input. -/
theorem start_transition_witness :
    (reducer initialState .start).phase = .streaming ∧
    (reducer initialState .start).result = none :=
  ⟨(start_transition initialState).1, (start_transition initialState).2.2.1⟩

/-- C9: every action preserves the node identifier list — whenever the
input state's nodes carry the five NodeNames in the fixed declared
order, so does the output state's node list. -/
theorem node_identity_order (s : OptimizeState) (a : OptimizeAction)
    (h : s.nodes.map (fun n => n.id) = NODE_ORDER) :
    (reducer s a).nodes.map (fun n => n.id) = NODE_ORDER := by
  have mapId : ∀ (f : PipelineNode → PipelineNode),
      (∀ n, (f n).id = n.id) →
      (s.nodes.map f).map (fun n => n.id) = NODE_ORDER := by
    intro f hf
    rw [List.map_map]
    calc s.nodes.map ((fun n => n.id) ∘ f)
        = s.nodes.map (fun n => n.id) :=
          List.map_congr_left (fun n _ => hf n)
      _ = NODE_ORDER := h
  cases a with
  | start => exact mapId _ (fun n => rfl)
  | nodeActive node => exact mapId _ (fun n => by by_cases hn : n.id = node <;> simp [hn])
  | nodeDone node data => exact mapId _ (fun n => by by_cases hn : n.id = node <;> simp [hn])
  | complete result => exact h
  | error e => exact mapId _ (fun n => by by_cases hn : n.status = .active <;> simp [hn])
  | reset => rfl
  | setTab tab => exact h
  | setProvider provider => cases provider <;> rfl

/-- Witness for C9 at a concrete input. -/
theorem node_identity_order_witness :
    initialState.nodes.map (fun n => n.id) = NODE_ORDER ∧
    (reducer initialState .start).nodes.map (fun n => n.id) = NODE_ORDER :=
  ⟨by decide, node_identity_order initialState .start (by decide)⟩

/-- C10 (implicit): RESET rebuilds the node list with the anthropic
provider's model labels regardless of any provider applied before it via
SET_PROVIDER, and the two providers' rebuilt node lists really differ,
so the earlier selection is not reflected after Reset. -/
theorem reset_rebuilds_anthropic_labels (s : OptimizeState) (p : LLMProvider) :
    (reducer (reducer s (.setProvider p)) .reset).nodes = buildPipelineNodes .anthropic ∧
    (reducer s .reset).nodes = buildPipelineNodes .anthropic ∧
    buildPipelineNodes .gemini ≠ buildPipelineNodes .anthropic :=
  ⟨rfl, rfl, by decide⟩

/-- Witness for C10 at a concrete input. -/
theorem reset_rebuilds_anthropic_labels_witness :
    (reducer (reducer initialState (.setProvider .gemini)) .reset).nodes
      = buildPipelineNodes .anthropic :=
  (reset_rebuilds_anthropic_labels initialState .gemini).1

/-- C4 counterexample: in a streaming state with router active, applying
SET_PROVIDER changes router's status (to pending), so the action does
not leave node statuses unchanged mid-stream. -/
theorem set_provider_midstream_counterexample :
    (applyActions initialState [.start, .nodeActive .router]).phase = .streaming ∧
    statusOf (applyActions initialState [.start, .nodeActive .router]) .router
      = some .active ∧
    statusOf (reducer (applyActions initialState [.start, .nodeActive .router])
        (.setProvider .gemini)) .router = some .pending := by
  decide

/-- C4 amended: applying SET_PROVIDER in any phase (streaming included)
rebuilds the node list for the new provider — every status is reset to
pending and every data cleared — while NodeName identity and order are
preserved and phase, result, error and selection are untouched. -/
theorem set_provider_rebuild (s : OptimizeState) (p : LLMProvider) :
    (reducer s (.setProvider p)).nodes = buildPipelineNodes p ∧
    (∀ n ∈ (reducer s (.setProvider p)).nodes, n.status = .pending ∧ n.data = none) ∧
    (reducer s (.setProvider p)).nodes.map (fun n => n.id) = NODE_ORDER ∧
    (reducer s (.setProvider p)).phase = s.phase ∧
    (reducer s (.setProvider p)).result = s.result ∧
    (reducer s (.setProvider p)).error = s.error ∧
    (reducer s (.setProvider p)).activeTab = s.activeTab := by
  refine ⟨rfl, ?_, ?_, rfl, rfl, rfl, rfl⟩
  · intro n hn
    simp only [reducer, buildPipelineNodes, List.mem_cons, List.not_mem_nil,
      or_false] at hn
    rcases hn with h | h | h | h | h <;> subst h <;> exact ⟨rfl, rfl⟩
  · cases p <;> rfl

/-- Witness for C4's amended statement at a concrete input. -/
theorem set_provider_rebuild_witness :
    (reducer initialState (.setProvider .gemini)).nodes = buildPipelineNodes .gemini :=
  (set_provider_rebuild initialState .gemini).1

/-- C5 counterexample: after an explicit SelectNode(router), a NodeDone
for a different node moves the selection to that node instead of
preserving the explicit selection. -/
theorem node_done_selection_counterexample :
    (reducer (reducer initialState (.setTab .router))
        (.nodeDone .market_analyst "x")).activeTab = some .market_analyst ∧
    (reducer (reducer initialState (.setTab .router))
        (.nodeDone .market_analyst "x")).activeTab ≠ some .router := by
  decide

/-- C5 amended: NodeDone(node, data) sets that node's status to done and
stores its data, and always sets selectedNode to that node — even when
the caller explicitly re-selected another node via SelectNode just
before, the explicit selection is overridden. -/
theorem node_done_selection (s : OptimizeState) (m n : NodeName) (d : String) :
    (reducer (reducer s (.setTab m)) (.nodeDone n d)).activeTab = some n ∧
    (∀ r ∈ (reducer (reducer s (.setTab m)) (.nodeDone n d)).nodes,
        r.id = n → r.status = .done ∧ r.data = some d) := by
  refine ⟨rfl, ?_⟩
  intro r hr hid
  simp only [reducer, List.mem_map] at hr
  obtain ⟨r₀, _, rfl⟩ := hr
  by_cases h : r₀.id = n
  · simp [h]
  · simp only [if_neg h] at hid ⊢
    exact absurd hid h

/-- Witness for C5's amended statement at a concrete input. -/
theorem node_done_selection_witness :
    (reducer (reducer initialState (.setTab .router))
        (.nodeDone .demand_forecaster "d")).activeTab = some .demand_forecaster :=
  (node_done_selection initialState .router .demand_forecaster "d").1

/-- C3 counterexample: in Scenario A the resulting router status is done,
not active — the dispatch loop synthesizes a NodeDone after every
recognized progress event. -/
theorem scenario_a_counterexample :
    statusOf (scenarioAState sampleResult) .router = some .done ∧
    statusOf (scenarioAState sampleResult) .router ≠ some .active := by
  decide

/-- C3 amended: after Progress(router, "hello") then Result(r), the state
has phase complete, router done with data "hello" stored, router
selected, and the result stored. -/
theorem scenario_a_amended (r : OptimizeResponse) :
    (scenarioAState r).phase = .complete ∧
    statusOf (scenarioAState r) .router = some .done ∧
    dataOf (scenarioAState r) .router = some (some "hello") ∧
    (scenarioAState r).activeTab = some .router ∧
    (scenarioAState r).result = some r :=
  ⟨rfl, rfl, rfl, rfl, rfl⟩

/-- Witness for C3's amended statement at a concrete result payload. -/
theorem scenario_a_amended_witness :
    (scenarioAState sampleResult).phase = .complete ∧
    dataOf (scenarioAState sampleResult) .router = some (some "hello") :=
  ⟨(scenario_a_amended sampleResult).1, (scenario_a_amended sampleResult).2.2.1⟩

/-- C1: the suppressed-after-cancel invariant fails on the code — if the
run is canceled (here by an explicit reset) during the 400 ms pause
between NODE_ACTIVE(router) and NODE_DONE(router), the run still
dispatches the in-flight NODE_DONE after the cancellation request, and
that dispatch alters the shared state: the post-reset state ends with
router marked done instead of the reset state. -/
theorem cancel_inflight_node_done_applied :
    actionsAfterCancel [.node "router" "hello"] (.atPause 0)
      = [.nodeDone .router "hello"] ∧
    statusOf (cancelRunFinalState [.node "router" "hello"] (.atPause 0) [.reset])
      .router = some .done ∧
    cancelRunFinalState [.node "router" "hello"] (.atPause 0) [.reset]
      ≠ applyActions initialState
          (actionsBeforeCancel [.node "router" "hello"] (.atPause 0) ++ [.reset]) := by
  decide

/-- C6: chat done-frame termination — once a frame whose parsed payload
has a truthy `done` is classified, the generator yields nothing from any
later frame: the yields of any payload sequence extending past the done
frame equal the yields of the sequence truncated right after it. -/
theorem chat_done_frame_terminates (l₁ : List (List Char)) (d : List Char)
    (l₂ : List (List Char)) (h : payloadEffect d = .halt) :
    processPayloads (l₁ ++ d :: l₂) = processPayloads (l₁ ++ [d]) := by
  induction l₁ with
  | nil => simp [processPayloads, h]
  | cons p rest ih =>
    simp only [List.cons_append]
    cases hp : payloadEffect p <;> simp [processPayloads, hp, ih]

/-- Witness for C6: Scenario B — the frames `content "Hi", done false`
then `content "", done true` yield exactly `Hi`, and a frame after the
done frame contributes nothing. -/
theorem chat_done_frame_terminates_witness :
    payloadEffect frameDone = .halt ∧
    processPayloads [frameHi, frameDone, frameLate]
      = processPayloads [frameHi, frameDone] ∧
    processPayloads [frameHi, frameDone] = ["Hi"] :=
  ⟨rfl, chat_done_frame_terminates [frameHi] frameDone [frameLate] rfl, rfl⟩

/-- C7: malformed-frame resilience — a payload that fails JSON parsing is
dropped silently and every other frame before and after it is delivered
exactly as it would be without the malformed frame. -/
theorem malformed_frame_dropped (l₁ : List (List Char)) (m : List Char)
    (l₂ : List (List Char)) (h : jsonParse m = none) :
    processPayloads (l₁ ++ m :: l₂) = processPayloads (l₁ ++ l₂) := by
  have hm : payloadEffect m = .skip := by unfold payloadEffect; rw [h]
  induction l₁ with
  | nil => simp [processPayloads, hm]
  | cons p rest ih =>
    simp only [List.cons_append]
    cases hp : payloadEffect p <;> simp [processPayloads, hp, ih]

/-- Witness for C7: a malformed frame between two valid frames leaves the
valid frames' yields untouched. -/
theorem malformed_frame_dropped_witness :
    jsonParse frameBad = none ∧
    processPayloads [frameHi, frameBad, frameLate]
      = processPayloads [frameHi, frameLate] ∧
    processPayloads [frameHi, frameLate] = ["Hi", "late"] :=
  ⟨rfl, malformed_frame_dropped [frameHi] frameBad [frameLate] rfl, rfl⟩

end AiRevenueManager
